import Mathlib

/-!
Verification of the Internet-Mood-Radar collection pipeline and progress
tracker: a shallow embedding of the scan-status module, the search adapter's
merge/dedup/recency/extraction stages, and the history store's recency query,
with theorems settling the stated properties.

Numbers are modelled as rationals (JS numbers on the values the program
manipulates: integral percentages, positions, day counts), `Math.round` as
Mathlib's `round` (both are floor of x + 1/2), JS `Map` as an association
list in insertion order, and `Set` as a list with membership. External
collaborators (URL normalizer, search/scrape/extract/geocode providers, the
URL selector) are opaque function parameters, as the spec treats them.
-/

namespace MoodRadar

/-- Phase vocabulary of the scan state machine, from the scan-status module. -/
inductive ScanPhase where
  | idle
  | fetching
  | processing
  | clustering
  | summarizing
  | saving
  | complete
  | error
deriving DecidableEq, Repr

/-- The ScanStatus record of the scan-status module. Timestamps are modelled
as integers. Optional fields are `Option`. -/
structure ScanStatus where
  phase : ScanPhase
  message : String
  progress : Option ℚ := none
  startedAt : Option ℤ := none
  completedAt : Option ℤ := none
  error : Option String := none
  itemCount : Option ℕ := none
deriving DecidableEq, Repr

/-- A partial update to ScanStatus: `some v` models a key present in the
update object, `none` a key absent from it (spread semantics). -/
structure ScanStatusUpdate where
  phase : Option ScanPhase := none
  message : Option String := none
  progress : Option ℚ := none
  startedAt : Option ℤ := none
  completedAt : Option ℤ := none
  error : Option String := none
  itemCount : Option ℕ := none
deriving DecidableEq, Repr

/-- updateScanStatus from the scan-status module:
currentStatus is replaced by the spread of the update over it, so each field
present in the update wins and each absent field keeps its previous value. -/
def updateScanStatus (s : ScanStatus) (u : ScanStatusUpdate) : ScanStatus where
  phase := match u.phase with | some v => v | none => s.phase
  message := match u.message with | some v => v | none => s.message
  progress := match u.progress with | some v => some v | none => s.progress
  startedAt := match u.startedAt with | some v => some v | none => s.startedAt
  completedAt := match u.completedAt with | some v => some v | none => s.completedAt
  error := match u.error with | some v => some v | none => s.error
  itemCount := match u.itemCount with | some v => some v | none => s.itemCount

/-- One entry of the per-region progress map of the scan-status module. -/
structure RegionInfo where
  progress : ℚ
  message : String
deriving DecidableEq, Repr

/-- The scan-status module's mutable state: the single live ScanStatus, the
per-region progress map (a JS Map, modelled as an association list in
insertion order), and the totalRegions counter. -/
structure TrackerState where
  currentStatus : ScanStatus
  regionProgress : List (String × RegionInfo)
  totalRegions : ℕ
deriving DecidableEq, Repr

/-- JS Map.set on the association-list model: an existing key keeps its
position and gets the new value, a new key is appended. -/
def mapSet : List (String × RegionInfo) → String → RegionInfo → List (String × RegionInfo)
  | [], k, v => [(k, v)]
  | (k', v') :: rest, k, v =>
    if k' = k then (k, v) :: rest else (k', v') :: mapSet rest k v

/-- JS Map.get on the association-list model. -/
def mapGet : List (String × RegionInfo) → String → Option RegionInfo
  | [], _ => none
  | (k', v') :: rest, k => if k' = k then some v' else mapGet rest k

/-- The minimum-finding loop of updateRegionProgress: starting from the
accumulator (minProgress, slowestRegion) = (100, ""), each entry with
progress strictly below the running minimum replaces it. -/
def findSlowest : List (String × RegionInfo) → ℚ × String → ℚ × String
  | [], acc => acc
  | (k, v) :: rest, acc =>
    findSlowest rest (if v.progress < acc.1 then (v.progress, k) else acc)

/-- updateRegionProgress from the scan-status module: records the region's
progress and message, then recomputes the overall status from the slowest
region. The region label is appended only when more than one region is
tracked, and a missing or empty slowest message falls back to the argument
(JS or-fallback). -/
def updateRegionProgress (st : TrackerState) (region : String) (progress : ℚ)
    (message : String) : TrackerState :=
  let rp := mapSet st.regionProgress region ⟨progress, message⟩
  if rp.length > 0 then
    let ms := findSlowest rp (100, "")
    let slowestInfo := mapGet rp ms.2
    let regionLabel := if st.totalRegions > 1 then " (" ++ ms.2 ++ ")" else ""
    let core :=
      match slowestInfo with
      | some i => if i.message = "" then message else i.message
      | none => message
    { st with
      regionProgress := rp
      currentStatus := updateScanStatus st.currentStatus
        { phase := some .fetching
          message := some (core ++ regionLabel)
          progress := some ms.1 } }
  else
    { st with regionProgress := rp }

/-- initRegionTracking from the scan-status module: clears the map, sets
totalRegions, and seeds every region at progress 0. -/
def initRegionTracking (st : TrackerState) (regions : List String) : TrackerState :=
  { st with
    regionProgress := regions.foldl (fun m r => mapSet m r ⟨0, "Starting..."⟩) []
    totalRegions := regions.length }

/-- clearRegionTracking from the scan-status module: empties the per-region
map and zeroes totalRegions; currentStatus is untouched. -/
def clearRegionTracking (st : TrackerState) : TrackerState :=
  { st with regionProgress := [], totalRegions := 0 }

/-- The phases that own a sub-range of the overall progress scale
(PHASE_PROGRESS keys in the scan-status module). -/
inductive ProgressPhase where
  | fetching
  | processing
  | clustering
  | summarizing
  | saving
deriving DecidableEq, Repr

/-- PHASE_PROGRESS from the scan-status module: the (start, end) sub-range
each phase owns on the overall 0-100 scale. -/
def PHASE_PROGRESS : ProgressPhase → ℚ × ℚ
  | .fetching => (0, 50)
  | .processing => (50, 60)
  | .clustering => (60, 70)
  | .summarizing => (70, 90)
  | .saving => (90, 100)

/-- calculatePhaseProgress from the scan-status module:
Math.round(start + (stepProgress / 100) * (end - start)); Math.round is
floor of x + 1/2, which is Mathlib's round on the rationals. -/
def calculatePhaseProgress (phase : ProgressPhase) (stepProgress : ℚ) : ℤ :=
  round ((PHASE_PROGRESS phase).1 +
    stepProgress / 100 * ((PHASE_PROGRESS phase).2 - (PHASE_PROGRESS phase).1))

/-- Content category vocabulary (the ContentCategory string union). -/
inductive ContentCategory where
  | news
  | events
  | tech
  | social
  | weather
deriving DecidableEq, Repr

/-- The string a ContentCategory value stands for. -/
def categoryName : ContentCategory → String
  | .news => "news"
  | .events => "events"
  | .tech => "tech"
  | .social => "social"
  | .weather => "weather"

/-- One search-result candidate (SerpResult): url, title, snippet and the
source ranking position. -/
structure SerpResult where
  url : String
  title : String
  snippet : String
  position : ℕ
deriving DecidableEq, Repr

/-- A directly-known candidate URL from the query-generation step. -/
structure DirectUrl where
  url : String
  name : String
deriving DecidableEq, Repr

/-- Step 3 of SearchAdapter.fetch: direct URLs become SerpResults with
priority positions 0, 1, ... in order. -/
def directAsSerpResults (directUrls : List DirectUrl) : List SerpResult :=
  directUrls.enum.map fun p =>
    { url := p.2.url
      title := p.2.name
      snippet := "Direct source: " ++ p.2.name
      position := p.1 }

/-- The loop of SearchAdapter.deduplicateResults: keep a result only when
its normalized URL was not seen before (the seen set is modelled as the
list of normalized URLs already kept). -/
def dedupAux (norm : String → String) (seen : List String) :
    List SerpResult → List SerpResult
  | [] => []
  | r :: rest =>
    if norm r.url ∈ seen then dedupAux norm seen rest
    else r :: dedupAux norm (norm r.url :: seen) rest

/-- Stable insertion of a result into a position-sorted list: it lands
before the first element of strictly greater position. -/
def insertByPosition (r : SerpResult) : List SerpResult → List SerpResult
  | [] => [r]
  | x :: xs => if x.position < r.position then x :: insertByPosition r xs else r :: x :: xs

/-- The final sort of deduplicateResults: ascending by position, stable
(JS Array.prototype.sort with the comparator a.position - b.position). -/
def sortByPosition (l : List SerpResult) : List SerpResult :=
  l.foldr insertByPosition []

/-- SearchAdapter.deduplicateResults: keep the first occurrence of each
normalized URL, then sort ascending by position. -/
def deduplicateResults (norm : String → String) (results : List SerpResult) :
    List SerpResult :=
  sortByPosition (dedupAux norm [] results)

/-- Steps 3-4 of SearchAdapter.fetch: concatenate direct URLs (first) with
SERP results and deduplicate. -/
def mergedResults (norm : String → String) (directUrls : List DirectUrl)
    (serpResults : List SerpResult) : List SerpResult :=
  deduplicateResults norm (directAsSerpResults directUrls ++ serpResults)

/-- A row of the persisted historical-item store, reduced to the fields the
recency query reads. Time is modelled in days. -/
structure HistoricalItem where
  url : String
  fetchedAt : ℤ
deriving DecidableEq, Repr

/-- URL_DEDUP_DAYS from the history module: skip URLs scraped in the last
7 days. -/
def URL_DEDUP_DAYS : ℤ := 7

/-- getRecentlyScrapedUrls from the history module: the normalized URLs of
every stored item fetched at or after now minus daysBack days (the returned
Set is modelled as a list with membership). -/
def getRecentlyScrapedUrls (norm : String → String) (store : List HistoricalItem)
    (now : ℤ) (daysBack : ℤ := URL_DEDUP_DAYS) : List String :=
  (store.filter fun i => now - daysBack ≤ i.fetchedAt).map fun i => norm i.url

/-- Step 4b of SearchAdapter.fetch: drop every candidate whose normalized
URL is in the recently-scraped set. -/
def filterNotRecent (norm : String → String) (existingUrls : List String)
    (results : List SerpResult) : List SerpResult :=
  results.filter fun r => !(existingUrls.contains (norm r.url))

/-- JS or-fallback on an optional string (x || fallback): a missing or empty
string yields the fallback. -/
def orElseStr (s : Option String) (fallback : String) : String :=
  match s with
  | some v => if v = "" then fallback else v
  | none => fallback

/-- A non-fatal per-item failure record. Timestamps are modelled as
integers. -/
structure NonFatalError where
  source : String
  message : String
  timestamp : ℤ
deriving DecidableEq, Repr

/-- Modelled from the spec: the Bounded Worker Pool (workerPoolCollect) is
not among the repository files in this snapshot; only its call sites are.
Per the worker-pool contract, every item is processed, a failing item
invokes the error callback with the item, its index and the error and
contributes no entry to the returned collection, and no failure stops the
remaining items. Scheduling and the concurrency bound are abstracted away;
the recursion processes items in submission order with their indices. The
first component is the collected results, the second the error-callback
invocations (item, index, error). -/
def workerPoolGo {I O E : Type} (worker : I → ℕ → Except E O) :
    List I → ℕ → List O × List (I × ℕ × E)
  | [], _ => ([], [])
  | x :: rest, idx =>
    let later := workerPoolGo worker rest (idx + 1)
    match worker x idx with
    | .ok o => (o :: later.1, later.2)
    | .error e => (later.1, (x, idx, e) :: later.2)

/-- Modelled from the spec: workerPoolCollect runs the worker over every
item (indices from 0) and returns the successful outputs plus the
error-callback invocations. -/
def workerPoolCollect {I O E : Type} (items : List I) (worker : I → ℕ → Except E O) :
    List O × List (I × ℕ × E) :=
  workerPoolGo worker items 0

/-- A generated search query with its category and language. -/
structure SearchQuery where
  query : String
  category : ContentCategory
  language : String
deriving DecidableEq, Repr

/-- A URL the selection step picked for scraping, with the category hint
passed through from generation. -/
structure UrlToScrape where
  url : String
  title : String
  snippet : String
  category : ContentCategory
deriving DecidableEq, Repr

/-- What the scrape provider returns for one URL. -/
structure ScrapeResult where
  content : String
  imageUrl : Option String
  title : Option String
deriving DecidableEq, Repr

/-- A scraped page as the extraction step receives it. -/
structure ScrapedContent where
  url : String
  content : String
  imageUrl : Option String
  title : String
  category : ContentCategory
deriving DecidableEq, Repr

/-- The fields the LLM extraction returns for one page. Dates are modelled
as integers and engagement as a number. -/
structure ExtractedFields where
  title : String
  summary : String
  category : ContentCategory
  articleUrl : Option String
  publishedAt : Option ℤ
  imageUrl : Option String
  location : Option String
  engagement : ℤ
  moodScore : ℕ
  eventDate : Option ℤ
deriving DecidableEq, Repr

/-- The fixed lens vocabulary of NormalizedItem. -/
inductive Lens where
  | Headlines
  | Tech
  | Weather
  | Conversation
  | Events
deriving DecidableEq, Repr

/-- SearchAdapter.categoryToLens: the category-to-lens mapping table
(news and the default both map to Headlines). -/
def categoryToLens : ContentCategory → Lens
  | .events => .Events
  | .tech => .Tech
  | .weather => .Weather
  | .social => .Conversation
  | .news => .Headlines

/-- What the geocoder returns for a location string. -/
structure Coords where
  lat : ℚ
  lng : ℚ
  country : Option String
deriving DecidableEq, Repr

/-- The location attached to an item after geocoding. -/
structure GeoLocation where
  name : String
  lat : ℚ
  lng : ℚ
  country : String
  region : String
deriving DecidableEq, Repr

/-- The pipeline's terminal output unit (NormalizedItem). -/
structure NormalizedItem where
  id : String
  source : String
  lens : Lens
  language : String
  title : String
  text : String
  createdAt : ℤ
  url : String
  engagement : ℤ
  context : String
  imageUrl : Option String
  faviconUrl : String
  location : Option GeoLocation
  moodScore : Option ℕ
  eventDate : Option ℤ
deriving DecidableEq, Repr

/-- The success branch of the extraction worker in
SearchAdapter.extractAndNormalize: builds the NormalizedItem from the
extracted fields. generateId is not among the snapshot's files and is
modelled from the spec as an opaque deterministic function of the id
string; getFaviconUrl, detectLanguage and geocode are external
collaborators, also opaque. The final URL prefers the LLM-extracted
articleUrl (JS or-fallback, so a missing or empty articleUrl falls back to
the scraped URL), the id is generateId applied to "search:" plus that final
URL, events get the distinct source value, and a geocoded location is
attached only when the geocoder returns coordinates. -/
def mkNormalizedItem (genId : String → String) (getFavicon : String → String)
    (detectLang : String → String) (geocodeFn : String → Option Coords)
    (countryName : String) (now : ℤ) (scraped : ScrapedContent)
    (extracted : ExtractedFields) : NormalizedItem :=
  let finalUrl := orElseStr extracted.articleUrl scraped.url
  { id := genId ("search:" ++ finalUrl)
    source := if extracted.category = .events then "events" else "search"
    lens := categoryToLens extracted.category
    language := detectLang (extracted.title ++ " " ++ extracted.summary)
    title := extracted.title
    text := extracted.summary
    createdAt := extracted.publishedAt.getD now
    url := finalUrl
    engagement := extracted.engagement
    context := "Search: " ++ categoryName extracted.category
    imageUrl := extracted.imageUrl
    faviconUrl := getFavicon finalUrl
    location :=
      match extracted.location with
      | none => none
      | some loc =>
        match geocodeFn loc with
        | none => none
        | some c =>
          some { name := loc
                 lat := c.lat
                 lng := c.lng
                 country := orElseStr c.country countryName
                 region := countryName }
    moodScore := some extracted.moodScore
    eventDate := extracted.eventDate }

/-- Whether the extraction of one scraped page succeeds: the extractor must
neither throw nor return null (a null result is raised as the failure
"Extraction returned null" inside the worker). -/
def extractionOk (extractFn : ScrapedContent → Except String (Option ExtractedFields))
    (scraped : ScrapedContent) : Bool :=
  match extractFn scraped with
  | .ok (some _) => true
  | _ => false

/-- The worker of SearchAdapter.extractAndNormalize: a thrown extraction
error propagates, a null extraction becomes the failure "Extraction
returned null", and a successful extraction is converted to a
NormalizedItem. -/
def extractWorker (genId : String → String) (getFavicon : String → String)
    (detectLang : String → String) (geocodeFn : String → Option Coords)
    (countryName : String) (now : ℤ)
    (extractFn : ScrapedContent → Except String (Option ExtractedFields))
    (scraped : ScrapedContent) (_idx : ℕ) : Except String NormalizedItem :=
  match extractFn scraped with
  | .error e => .error e
  | .ok none => .error "Extraction returned null"
  | .ok (some extracted) =>
    .ok (mkNormalizedItem genId getFavicon detectLang geocodeFn countryName now
      scraped extracted)

/-- SearchAdapter.extractAndNormalize (step 7): run the extraction worker
over every scraped page through the worker pool; each failure is recorded
as a NonFatalError with source Extract, and the successes are the returned
items. -/
def extractAndNormalize (genId : String → String) (getFavicon : String → String)
    (detectLang : String → String) (geocodeFn : String → Option Coords)
    (countryName : String) (now : ℤ)
    (extractFn : ScrapedContent → Except String (Option ExtractedFields))
    (scrapedContent : List ScrapedContent) :
    List NormalizedItem × List NonFatalError :=
  let res := workerPoolCollect scrapedContent
    (extractWorker genId getFavicon detectLang geocodeFn countryName now extractFn)
  (res.1, res.2.map fun f =>
    { source := "Extract"
      message := "Failed to extract: " ++ f.1.url ++ " - " ++ f.2.2
      timestamp := now })

/-- Step 2 of SearchAdapter.fetch (runSearches): every query goes through
the worker pool; a failed query becomes a NonFatalError with source Search,
and the per-query result lists are flattened. -/
def runSearches (searchFn : SearchQuery → Except String (List SerpResult))
    (queries : List SearchQuery) (now : ℤ) :
    List SerpResult × List NonFatalError :=
  let res := workerPoolCollect queries (fun q _ => searchFn q)
  (res.1.flatten, res.2.map fun f =>
    { source := "Search"
      message := "Query failed: " ++ f.1.query ++ " - " ++ f.2.2
      timestamp := now })

/-- Step 6 of SearchAdapter.fetch (scrapeUrls): every selected URL goes
through the worker pool; a failed scrape becomes a NonFatalError with
source Scrape; a successful one keeps the scraped content, the image and
the title (scraped title with or-fallback to the candidate's title) and the
category hint. -/
def scrapeUrls (scrapeFn : String → Except String ScrapeResult)
    (urls : List UrlToScrape) (now : ℤ) :
    List ScrapedContent × List NonFatalError :=
  let res := workerPoolCollect urls (fun u _ =>
    match scrapeFn u.url with
    | .error e => .error e
    | .ok r => .ok { url := u.url
                     content := r.content
                     imageUrl := r.imageUrl
                     title := orElseStr r.title u.title
                     category := u.category })
  (res.1, res.2.map fun f =>
    { source := "Scrape"
      message := "Failed to scrape: " ++ f.1.url ++ " - " ++ f.2.2
      timestamp := now })

/-- The availability report of the external fetch/scrape provider
(getBrightDataStatus). -/
structure ProviderStatus where
  available : Bool
  message : String
deriving DecidableEq, Repr

/-- Modelled from the spec: FetchResult and BaseAdapter.emptyResult are
declared outside the snapshot's files; per the spec, the result of a run is
the items plus the non-fatal errors, and an unavailable provider yields an
empty result carrying an explanatory message. -/
structure FetchResult where
  items : List NormalizedItem
  errors : List NonFatalError
  sourceName : String
  message : Option String := none
deriving DecidableEq, Repr

/-- Modelled from the spec: BaseAdapter.emptyResult returns a result with
no items and no errors and the explanatory message. -/
def emptyResult (sourceName msg : String) : FetchResult :=
  { items := [], errors := [], sourceName := sourceName, message := some msg }

/-- The external collaborators and configuration SearchAdapter.fetch uses,
gathered as opaque function parameters (per the spec they are injected
strategies with a narrow contract). Progress reporting mutates only the
tracker and not the pipeline's data flow, so it is modelled separately by
the scan-status definitions above. -/
structure PipelineEnv where
  norm : String → String
  genId : String → String
  getFavicon : String → String
  detectLang : String → String
  geocodeFn : String → Option Coords
  searchFn : SearchQuery → Except String (List SerpResult)
  scrapeFn : String → Except String ScrapeResult
  extractFn : ScrapedContent → Except String (Option ExtractedFields)
  selectFn : List SerpResult → List UrlToScrape
  store : List HistoricalItem
  now : ℤ
  countryName : String
  sourceName : String

/-- SearchAdapter.fetch: the availability check first (an unavailable
provider returns the empty result at once), then query generation output,
parallel search, merge of direct URLs, dedup, the recency filter, URL
selection, parallel scrape and parallel extraction. The second component
counts the worker-pool invocations made (the full path makes three: search,
scrape, extract). -/
def fetchPipeline (env : PipelineEnv) (bd : ProviderStatus)
    (gen : List SearchQuery × List DirectUrl) : FetchResult × ℕ :=
  if bd.available = false then
    (emptyResult env.sourceName bd.message, 0)
  else
    let searchOut := runSearches env.searchFn gen.1 env.now
    let uniqueResults := mergedResults env.norm gen.2 searchOut.1
    let existingUrls := getRecentlyScrapedUrls env.norm env.store env.now
    let newResults := filterNotRecent env.norm existingUrls uniqueResults
    let selectedUrls := env.selectFn newResults
    let scrapeOut := scrapeUrls env.scrapeFn selectedUrls env.now
    let extractOut := extractAndNormalize env.genId env.getFavicon env.detectLang
      env.geocodeFn env.countryName env.now env.extractFn scrapeOut.1
    ({ items := extractOut.1
       errors := searchOut.2 ++ scrapeOut.2 ++ extractOut.2
       sourceName := env.sourceName
       message := none }, 3)

/-- A tracker state with regions A at progress 80 and B at progress 30,
both tracked (totalRegions = 2). -/
def stAB : TrackerState :=
  { currentStatus := { phase := .idle, message := "Ready" }
    regionProgress := [("A", ⟨80, "msgA"⟩), ("B", ⟨30, "msgB"⟩)]
    totalRegions := 2 }

/-- A tracker state right after clearRegionTracking, with a fetching status
left over from the run. -/
def stCleared : TrackerState :=
  clearRegionTracking
    { currentStatus := { phase := .fetching, message := "old", progress := some 10 }
      regionProgress := [("A", ⟨50, "x"⟩)]
      totalRegions := 1 }

/-- A direct URL D for the dedup tie-break scenario. -/
def directD : DirectUrl := ⟨"https://d.example/", "DirectD"⟩

/-- An organic result O at position 5 whose URL normalizes equal to D's. -/
def organicO : SerpResult := ⟨"https://o.example/page", "OTitle", "OSnip", 5⟩

/-- A normalizer sending both scenario URLs to one canonical form. -/
def normC : String → String := fun u =>
  if u = "https://d.example/" then "canonical"
  else if u = "https://o.example/page" then "canonical"
  else u

/-- A one-item history store: the URL u1 was fetched at day 0. -/
def storeDemo : List HistoricalItem := [⟨"u1", 0⟩]

/-- Two deduplicated candidates, one recently scraped (u1) and one new. -/
def uniqueDemo : List SerpResult := [⟨"u1", "t1", "s1", 3⟩, ⟨"u2", "t2", "s2", 4⟩]

/-- A selection picking the surviving new candidate u2. -/
def selectedDemo : List UrlToScrape := [⟨"u2", "t2", "s2", .news⟩]

/-- A concrete pipeline environment with trivial collaborators. -/
def envDemo : PipelineEnv :=
  { norm := fun u => u
    genId := fun s => s
    getFavicon := fun s => s
    detectLang := fun _ => "en"
    geocodeFn := fun _ => none
    searchFn := fun _ => .ok []
    scrapeFn := fun _ => .ok ⟨"", none, none⟩
    extractFn := fun _ => .ok none
    selectFn := fun _ => []
    store := []
    now := 0
    countryName := "Israel"
    sourceName := "search" }

/-- An unavailable provider status with its explanatory message. -/
def bdDown : ProviderStatus := ⟨false, "BrightData is not configured"⟩

/-- A query-generation output for the unavailability scenario. -/
def genDemo : List SearchQuery × List DirectUrl :=
  ([⟨"q1", .news, "en"⟩], [directD])

/-- C9: updates are partial merges into the live ScanStatus: every field
present in the update takes the update's value and every field absent from
it retains its previous value. -/
theorem updateScanStatus_partialMerge (s : ScanStatus) (u : ScanStatusUpdate) :
    ((∀ v, u.phase = some v → (updateScanStatus s u).phase = v) ∧
      (u.phase = none → (updateScanStatus s u).phase = s.phase)) ∧
    ((∀ v, u.message = some v → (updateScanStatus s u).message = v) ∧
      (u.message = none → (updateScanStatus s u).message = s.message)) ∧
    ((∀ v, u.progress = some v → (updateScanStatus s u).progress = some v) ∧
      (u.progress = none → (updateScanStatus s u).progress = s.progress)) ∧
    ((∀ v, u.startedAt = some v → (updateScanStatus s u).startedAt = some v) ∧
      (u.startedAt = none → (updateScanStatus s u).startedAt = s.startedAt)) ∧
    ((∀ v, u.completedAt = some v → (updateScanStatus s u).completedAt = some v) ∧
      (u.completedAt = none → (updateScanStatus s u).completedAt = s.completedAt)) ∧
    ((∀ v, u.error = some v → (updateScanStatus s u).error = some v) ∧
      (u.error = none → (updateScanStatus s u).error = s.error)) ∧
    ((∀ v, u.itemCount = some v → (updateScanStatus s u).itemCount = some v) ∧
      (u.itemCount = none → (updateScanStatus s u).itemCount = s.itemCount)) := by
  refine ⟨⟨fun v h => ?_, fun h => ?_⟩, ⟨fun v h => ?_, fun h => ?_⟩,
    ⟨fun v h => ?_, fun h => ?_⟩, ⟨fun v h => ?_, fun h => ?_⟩,
    ⟨fun v h => ?_, fun h => ?_⟩, ⟨fun v h => ?_, fun h => ?_⟩,
    ⟨fun v h => ?_, fun h => ?_⟩⟩ <;> simp [updateScanStatus, h]

/-- C5 counterexample: a local progress of 1 during summarizing (range
70 to 90) is reported as 70, not as the exact linear value 70.2, because
the code rounds to the nearest integer. -/
theorem phaseMapping_cex :
    ¬(((calculatePhaseProgress ProgressPhase.summarizing 1 : ℤ) : ℚ) =
      (PHASE_PROGRESS ProgressPhase.summarizing).1 + 1 / 100 *
        ((PHASE_PROGRESS ProgressPhase.summarizing).2 -
          (PHASE_PROGRESS ProgressPhase.summarizing).1)) := by
  norm_num [calculatePhaseProgress, PHASE_PROGRESS, round_eq]

/-- C5 (amended): the reported overall progress is the linear map of the
phase-local value into the phase's sub-range rounded to the nearest
integer, hence within one half of the exact linear value; the integral
example stands: local 50 during summarizing maps to overall 80. -/
theorem phaseMapping_rounded (phase : ProgressPhase) (lcl : ℚ) :
    calculatePhaseProgress phase lcl =
      round ((PHASE_PROGRESS phase).1 + lcl / 100 *
        ((PHASE_PROGRESS phase).2 - (PHASE_PROGRESS phase).1)) ∧
    |((PHASE_PROGRESS phase).1 + lcl / 100 *
        ((PHASE_PROGRESS phase).2 - (PHASE_PROGRESS phase).1)) -
      ((calculatePhaseProgress phase lcl : ℤ) : ℚ)| ≤ 1 / 2 ∧
    calculatePhaseProgress ProgressPhase.summarizing 50 = 80 := by
  refine ⟨rfl, ?_, by norm_num [calculatePhaseProgress, PHASE_PROGRESS, round_eq]⟩
  simpa [calculatePhaseProgress] using
    abs_sub_round ((PHASE_PROGRESS phase).1 + lcl / 100 *
      ((PHASE_PROGRESS phase).2 - (PHASE_PROGRESS phase).1))

/-- C4 counterexample: after clearRegionTracking, a call to
updateRegionProgress still changes the ScanStatus (the region is re-added
to the emptied map before the non-empty check, so the aggregation runs). -/
theorem clearTracking_cex :
    (updateRegionProgress stCleared "A" 42 "m").currentStatus ≠
      stCleared.currentStatus := by
  decide

/-- C4 (amended): after clearRegionTracking and before the next init, a
call to updateRegionProgress re-registers exactly the calling region and
rewrites the ScanStatus from it: phase becomes fetching, progress becomes
the region's progress (capped by the aggregation loop's initial 100), and
the message becomes the call's message with no region suffix. -/
theorem clearTracking_amended (st : TrackerState) (region : String) (p : ℚ)
    (msg : String) :
    (updateRegionProgress (clearRegionTracking st) region p msg).regionProgress =
      [(region, ⟨p, msg⟩)] ∧
    (updateRegionProgress (clearRegionTracking st) region p msg).currentStatus.phase =
      ScanPhase.fetching ∧
    (updateRegionProgress (clearRegionTracking st) region p msg).currentStatus.progress =
      some (min p 100) ∧
    (updateRegionProgress (clearRegionTracking st) region p msg).currentStatus.message =
      msg := by
  by_cases hp : p < 100
  · simp [updateRegionProgress, clearRegionTracking, mapSet, findSlowest, mapGet,
      updateScanStatus, hp, min_eq_left hp.le, ite_self]
  · by_cases hr : region = ""
    · simp [updateRegionProgress, clearRegionTracking, mapSet, findSlowest, mapGet,
        updateScanStatus, hp, hr, min_eq_right (le_of_not_lt hp), ite_self]
    · simp [updateRegionProgress, clearRegionTracking, mapSet, findSlowest, mapGet,
        updateScanStatus, hp, hr, min_eq_right (le_of_not_lt hp), ite_self]

/-- C8: when the provider availability check fails, fetch returns the empty
result with the explanatory message at once, with no items, no errors, and
zero worker-pool invocations. -/
theorem fetch_unavailable (env : PipelineEnv) (bd : ProviderStatus)
    (gen : List SearchQuery × List DirectUrl) (h : bd.available = false) :
    fetchPipeline env bd gen = (emptyResult env.sourceName bd.message, 0) ∧
    (fetchPipeline env bd gen).1.items = [] ∧
    (fetchPipeline env bd gen).1.errors = [] ∧
    (fetchPipeline env bd gen).1.message = some bd.message := by
  simp [fetchPipeline, h, emptyResult]

/-- C8 witness: the unavailability scenario at a concrete environment. -/
theorem fetch_unavailable_witness :
    fetchPipeline envDemo bdDown genDemo =
      (emptyResult "search" "BrightData is not configured", 0) := by
  have h := fetch_unavailable envDemo bdDown genDemo rfl
  simpa [envDemo, bdDown] using h.1

/-- Map.set never returns an empty map. -/
theorem mapSet_ne_nil (m : List (String × RegionInfo)) (k : String) (v : RegionInfo) :
    mapSet m k v ≠ [] := by
  cases m with
  | nil => simp [mapSet]
  | cons h t =>
    obtain ⟨k', v'⟩ := h
    by_cases hk : k' = k <;> simp [mapSet, hk]

/-- The minimum-finding loop never raises the running minimum. -/
theorem findSlowest_fst_le :
    ∀ (l : List (String × RegionInfo)) (acc : ℚ × String),
      (findSlowest l acc).1 ≤ acc.1
  | [], _ => le_refl _
  | (k, v) :: rest, acc => by
    simp only [findSlowest]
    refine le_trans (findSlowest_fst_le rest _) ?_
    split_ifs with h
    · exact h.le
    · exact le_refl _

/-- The minimum-finding loop's result is at most every entry's progress. -/
theorem findSlowest_fst_le_mem :
    ∀ (l : List (String × RegionInfo)) (acc : ℚ × String) (e : String × RegionInfo),
      e ∈ l → (findSlowest l acc).1 ≤ e.2.progress
  | (k, v) :: rest, acc, e, he => by
    simp only [findSlowest]
    rcases List.mem_cons.mp he with rfl | hmem
    · refine le_trans (findSlowest_fst_le rest _) ?_
      split_ifs with h
      · exact le_refl _
      · exact le_of_not_lt h
    · exact findSlowest_fst_le_mem rest _ e hmem

/-- The minimum-finding loop either keeps its accumulator or returns the
key and progress of some entry of the list. -/
theorem findSlowest_eq_or_mem :
    ∀ (l : List (String × RegionInfo)) (acc : ℚ × String),
      findSlowest l acc = acc ∨
        ∃ w, ((findSlowest l acc).2, w) ∈ l ∧ w.progress = (findSlowest l acc).1
  | [], _ => Or.inl rfl
  | (k, v) :: rest, acc => by
    simp only [findSlowest]
    rcases findSlowest_eq_or_mem rest
        (if v.progress < acc.1 then (v.progress, k) else acc) with heq | ⟨w, hw, hwp⟩
    · rw [heq]
      split_ifs with h
      · exact Or.inr ⟨v, by simp, rfl⟩
      · exact Or.inl rfl
    · exact Or.inr ⟨w, List.mem_cons_of_mem _ hw, hwp⟩

/-- Map.get finds the value of any entry of a map with no duplicate keys. -/
theorem mapGet_of_mem_nodup :
    ∀ (l : List (String × RegionInfo)) (k : String) (v : RegionInfo),
      (k, v) ∈ l → (l.map Prod.fst).Nodup → mapGet l k = some v
  | (k', v') :: rest, k, v, hmem, hnd => by
    simp only [mapGet]
    rcases List.mem_cons.mp hmem with heq | hmem'
    · rw [Prod.mk.injEq] at heq
      obtain ⟨h1, h2⟩ := heq
      subst h1; subst h2
      simp
    · have hnd' : (∀ x : RegionInfo, (k', x) ∉ rest) ∧ (rest.map Prod.fst).Nodup := by
        simpa using hnd
      have hk : k' ≠ k := by
        intro h
        subst h
        exact hnd'.1 v hmem'
      simp only [hk, if_false]
      exact mapGet_of_mem_nodup rest k v hmem' hnd'.2

/-- updateRegionProgress unfolded: the map gets the region's entry, and the
status merge always runs because the freshly-set map is never empty. -/
theorem updateRegionProgress_def (st : TrackerState) (region : String) (p : ℚ)
    (msg : String) :
    updateRegionProgress st region p msg =
      { st with
        regionProgress := mapSet st.regionProgress region ⟨p, msg⟩
        currentStatus := updateScanStatus st.currentStatus
          { phase := some .fetching
            message := some
              ((match mapGet (mapSet st.regionProgress region ⟨p, msg⟩)
                  (findSlowest (mapSet st.regionProgress region ⟨p, msg⟩) (100, "")).2 with
                | some i => if i.message = "" then msg else i.message
                | none => msg) ++
                (if st.totalRegions > 1 then
                  " (" ++ (findSlowest (mapSet st.regionProgress region ⟨p, msg⟩) (100, "")).2 ++ ")"
                else ""))
            progress := some (findSlowest (mapSet st.regionProgress region ⟨p, msg⟩) (100, "")).1 } } := by
  have hne : mapSet st.regionProgress region ⟨p, msg⟩ ≠ [] :=
    mapSet_ne_nil st.regionProgress region ⟨p, msg⟩
  rw [updateRegionProgress]
  simp [List.length_pos.mpr hne]

/-- C1 counterexample: with regions A at 80 and B at 30 (two tracked
regions), updating B leaves the overall progress at 30 but displays
"msgB (B)" rather than B's message "msgB" (the code appends the region
label when more than one region is tracked). -/
theorem regionAggregation_cex :
    (updateRegionProgress stAB "B" 30 "msgB").currentStatus.progress = some 30 ∧
    (updateRegionProgress stAB "B" 30 "msgB").currentStatus.message = "msgB (B)" ∧
    (updateRegionProgress stAB "B" 30 "msgB").currentStatus.message ≠ "msgB" := by
  decide

/-- C1 (amended): after any updateRegionProgress on a duplicate-free region
map in which some region is strictly below 100, the tracker is in the
fetching phase, its overall progress is the minimum progress across all
tracked regions, and (provided region messages are non-empty, so the
or-fallback is inert) its displayed message is the slowest region's
message, suffixed with that region's name when more than one region is
tracked. -/
theorem regionAggregation_min (st : TrackerState) (region : String) (p : ℚ)
    (msg : String)
    (hnd : ((mapSet st.regionProgress region ⟨p, msg⟩).map Prod.fst).Nodup)
    (hlt : ∃ e ∈ mapSet st.regionProgress region ⟨p, msg⟩, e.2.progress < 100)
    (hmsg : ∀ e ∈ mapSet st.regionProgress region ⟨p, msg⟩, e.2.message ≠ "") :
    (updateRegionProgress st region p msg).currentStatus.phase = ScanPhase.fetching ∧
    ∃ r i, (r, i) ∈ mapSet st.regionProgress region ⟨p, msg⟩ ∧
      (∀ e ∈ mapSet st.regionProgress region ⟨p, msg⟩, i.progress ≤ e.2.progress) ∧
      (updateRegionProgress st region p msg).currentStatus.progress = some i.progress ∧
      (updateRegionProgress st region p msg).currentStatus.message =
        i.message ++ (if st.totalRegions > 1 then " (" ++ r ++ ")" else "") := by
  obtain ⟨e, he, helt⟩ := hlt
  have hle : (findSlowest (mapSet st.regionProgress region ⟨p, msg⟩) (100, "")).1 ≤
      e.2.progress :=
    findSlowest_fst_le_mem _ _ e he
  have hlt100 : (findSlowest (mapSet st.regionProgress region ⟨p, msg⟩) (100, "")).1 < 100 :=
    lt_of_le_of_lt hle helt
  rcases findSlowest_eq_or_mem (mapSet st.regionProgress region ⟨p, msg⟩) (100, "") with
    heq | ⟨w, hw, hwp⟩
  · rw [heq] at hlt100
    exact absurd hlt100 (lt_irrefl _)
  have hget : mapGet (mapSet st.regionProgress region ⟨p, msg⟩)
      (findSlowest (mapSet st.regionProgress region ⟨p, msg⟩) (100, "")).2 = some w :=
    mapGet_of_mem_nodup _ _ w hw hnd
  have hwmsg : w.message ≠ "" := hmsg _ hw
  rw [updateRegionProgress_def, hget]
  refine ⟨by simp [updateScanStatus], ?_⟩
  refine ⟨(findSlowest (mapSet st.regionProgress region ⟨p, msg⟩) (100, "")).2, w, hw,
    ?_, ?_, ?_⟩
  · intro e' he'
    rw [hwp]
    exact findSlowest_fst_le_mem _ _ e' he'
  · simp [updateScanStatus, hwp]
  · simp [updateScanStatus, hwmsg]

/-- C1 witness: the two-region scenario of the claim, through the amended
theorem. -/
theorem regionAggregation_min_witness :
    (updateRegionProgress stAB "B" 30 "msgB").currentStatus.phase = ScanPhase.fetching ∧
    ∃ r i, (r, i) ∈ mapSet stAB.regionProgress "B" ⟨30, "msgB"⟩ ∧
      (∀ e ∈ mapSet stAB.regionProgress "B" ⟨30, "msgB"⟩, i.progress ≤ e.2.progress) ∧
      (updateRegionProgress stAB "B" 30 "msgB").currentStatus.progress = some i.progress ∧
      (updateRegionProgress stAB "B" 30 "msgB").currentStatus.message =
        i.message ++ (if stAB.totalRegions > 1 then " (" ++ r ++ ")" else "") :=
  regionAggregation_min stAB "B" 30 "msgB" (by decide)
    ⟨("B", ⟨30, "msgB"⟩), by decide, by decide⟩ (by decide)

/-- The worker-pool recursion, characterized: the collected results are the
successful outputs in order, and the error-callback invocations carry each
failing item with its index and error, in order. -/
theorem workerPoolGo_eq {I O E : Type} (worker : I → ℕ → Except E O) :
    ∀ (items : List I) (idx : ℕ),
      workerPoolGo worker items idx =
        ((List.enumFrom idx items).filterMap fun p =>
            match worker p.2 p.1 with
            | .ok o => some o
            | .error _ => none,
          (List.enumFrom idx items).filterMap fun p =>
            match worker p.2 p.1 with
            | .ok _ => none
            | .error e => some (p.2, p.1, e))
  | [], _ => rfl
  | x :: rest, idx => by
    simp only [workerPoolGo, List.enumFrom, List.filterMap_cons]
    rw [workerPoolGo_eq worker rest (idx + 1)]
    cases h : worker x idx <;> simp [h]

/-- Every item contributes to exactly one side of the pool's output: the
result count plus the error-callback count is the item count. -/
theorem workerPoolGo_length {I O E : Type} (worker : I → ℕ → Except E O) :
    ∀ (items : List I) (idx : ℕ),
      (workerPoolGo worker items idx).1.length +
        (workerPoolGo worker items idx).2.length = items.length
  | [], _ => rfl
  | x :: rest, idx => by
    have ih := workerPoolGo_length worker rest (idx + 1)
    simp only [workerPoolGo]
    cases h : worker x idx <;> simp [h] <;> omega

/-- For an index-independent worker, the pool's result and error counts are
the counts of succeeding and failing items. -/
theorem workerPoolGo_lengths_of_indep {I O E : Type} (worker : I → ℕ → Except E O)
    (ok : I → Bool) (hok : ∀ x i, (worker x i).isOk = ok x) :
    ∀ (items : List I) (idx : ℕ),
      (workerPoolGo worker items idx).1.length = (items.filter ok).length ∧
      (workerPoolGo worker items idx).2.length =
        (items.filter fun x => !(ok x)).length
  | [], _ => ⟨rfl, rfl⟩
  | x :: rest, idx => by
    have ih := workerPoolGo_lengths_of_indep worker ok hok rest (idx + 1)
    have hx := hok x idx
    simp only [workerPoolGo]
    cases h : worker x idx with
    | ok o =>
      have hxo : ok x = true := by rw [← hx, h]; rfl
      simp [h, List.filter_cons, hxo, ih.1, ih.2]
    | error e =>
      have hxo : ok x = false := by rw [← hx, h]; rfl
      simp [h, List.filter_cons, hxo, ih.1, ih.2]

/-- C3: for every input list, the pool returns one entry per
successfully-completed item (so with F of K failing, K - F results), and
the error callback fires exactly once per failing item, with the item, its
index and the error. -/
theorem workerPool_results {I O E : Type} (items : List I)
    (worker : I → ℕ → Except E O) :
    (workerPoolCollect items worker).1.length +
      (workerPoolCollect items worker).2.length = items.length ∧
    (workerPoolCollect items worker).1 =
      (items.enum.filterMap fun p =>
        match worker p.2 p.1 with
        | .ok o => some o
        | .error _ => none) ∧
    (workerPoolCollect items worker).2 =
      (items.enum.filterMap fun p =>
        match worker p.2 p.1 with
        | .ok _ => none
        | .error e => some (p.2, p.1, e)) := by
  refine ⟨workerPoolGo_length worker items 0, ?_, ?_⟩
  · rw [workerPoolCollect, workerPoolGo_eq worker items 0]
    rfl
  · rw [workerPoolCollect, workerPoolGo_eq worker items 0]
    rfl

/-- The extraction worker succeeds exactly when the extractor neither
throws nor returns null. -/
theorem extractWorker_isOk (genId : String → String) (getFavicon : String → String)
    (detectLang : String → String) (geocodeFn : String → Option Coords)
    (countryName : String) (now : ℤ)
    (extractFn : ScrapedContent → Except String (Option ExtractedFields))
    (scraped : ScrapedContent) (idx : ℕ) :
    (extractWorker genId getFavicon detectLang geocodeFn countryName now extractFn
      scraped idx).isOk = extractionOk extractFn scraped := by
  rcases h : extractFn scraped with e | o
  · simp [extractWorker, extractionOk, h, Except.isOk, Except.toBool]
  · rcases o with _ | f <;>
      simp [extractWorker, extractionOk, h, Except.isOk, Except.toBool]

/-- C7: in the extraction step, a null (or thrown) extraction is a per-item
failure, not a success: the items are exactly one per successful
extraction, each failure appends exactly one NonFatalError with source
Extract, and every page is accounted for on one side or the other. -/
theorem extraction_failures (genId : String → String) (getFavicon : String → String)
    (detectLang : String → String) (geocodeFn : String → Option Coords)
    (countryName : String) (now : ℤ)
    (extractFn : ScrapedContent → Except String (Option ExtractedFields))
    (scrapedContent : List ScrapedContent) :
    (extractAndNormalize genId getFavicon detectLang geocodeFn countryName now
        extractFn scrapedContent).1.length =
      (scrapedContent.filter (extractionOk extractFn)).length ∧
    (extractAndNormalize genId getFavicon detectLang geocodeFn countryName now
        extractFn scrapedContent).2.length =
      (scrapedContent.filter fun s => !(extractionOk extractFn s)).length ∧
    (∀ e ∈ (extractAndNormalize genId getFavicon detectLang geocodeFn countryName now
        extractFn scrapedContent).2, e.source = "Extract") ∧
    (extractAndNormalize genId getFavicon detectLang geocodeFn countryName now
        extractFn scrapedContent).1.length +
      (extractAndNormalize genId getFavicon detectLang geocodeFn countryName now
        extractFn scrapedContent).2.length = scrapedContent.length := by
  have hlen := workerPoolGo_lengths_of_indep
    (extractWorker genId getFavicon detectLang geocodeFn countryName now extractFn)
    (extractionOk extractFn)
    (extractWorker_isOk genId getFavicon detectLang geocodeFn countryName now extractFn)
    scrapedContent 0
  have htot := workerPoolGo_length
    (extractWorker genId getFavicon detectLang geocodeFn countryName now extractFn)
    scrapedContent 0
  refine ⟨?_, ?_, ?_, ?_⟩
  · simpa [extractAndNormalize, workerPoolCollect] using hlen.1
  · simpa [extractAndNormalize, workerPoolCollect] using hlen.2
  · intro e he
    simp only [extractAndNormalize, List.mem_map] at he
    obtain ⟨f, _, rfl⟩ := he
    rfl
  · simpa [extractAndNormalize, workerPoolCollect] using htot

/-- The URL of a built item is the or-fallback of the extracted article URL
over the scraped URL. -/
theorem mkNormalizedItem_url (genId : String → String) (getFavicon : String → String)
    (detectLang : String → String) (geocodeFn : String → Option Coords)
    (countryName : String) (now : ℤ) (scraped : ScrapedContent)
    (extracted : ExtractedFields) :
    (mkNormalizedItem genId getFavicon detectLang geocodeFn countryName now
      scraped extracted).url = orElseStr extracted.articleUrl scraped.url := rfl

/-- The id of a built item is generateId of the prefixed final URL. -/
theorem mkNormalizedItem_id (genId : String → String) (getFavicon : String → String)
    (detectLang : String → String) (geocodeFn : String → Option Coords)
    (countryName : String) (now : ℤ) (scraped : ScrapedContent)
    (extracted : ExtractedFields) :
    (mkNormalizedItem genId getFavicon detectLang geocodeFn countryName now
      scraped extracted).id =
      genId ("search:" ++ orElseStr extracted.articleUrl scraped.url) := rfl

/-- C10: the produced item's url is the LLM-extracted canonical article URL
when a non-empty one is present and otherwise the scraped URL; the item's
id is the deterministic id function applied to the final URL (with the
search prefix), so two extractions yielding the same final URL produce
items with the same id. -/
theorem finalUrl_and_id (genId : String → String) (getFavicon : String → String)
    (detectLang : String → String) (geocodeFn : String → Option Coords)
    (countryName : String) (now : ℤ) (scraped : ScrapedContent)
    (extracted : ExtractedFields) :
    (∀ u, extracted.articleUrl = some u → u ≠ "" →
      (mkNormalizedItem genId getFavicon detectLang geocodeFn countryName now
        scraped extracted).url = u) ∧
    ((extracted.articleUrl = none ∨ extracted.articleUrl = some "") →
      (mkNormalizedItem genId getFavicon detectLang geocodeFn countryName now
        scraped extracted).url = scraped.url) ∧
    (mkNormalizedItem genId getFavicon detectLang geocodeFn countryName now
        scraped extracted).id =
      genId ("search:" ++
        (mkNormalizedItem genId getFavicon detectLang geocodeFn countryName now
          scraped extracted).url) ∧
    (∀ (scraped2 : ScrapedContent) (extracted2 : ExtractedFields),
      (mkNormalizedItem genId getFavicon detectLang geocodeFn countryName now
          scraped2 extracted2).url =
        (mkNormalizedItem genId getFavicon detectLang geocodeFn countryName now
          scraped extracted).url →
      (mkNormalizedItem genId getFavicon detectLang geocodeFn countryName now
          scraped2 extracted2).id =
        (mkNormalizedItem genId getFavicon detectLang geocodeFn countryName now
          scraped extracted).id) := by
  refine ⟨?_, ?_, rfl, ?_⟩
  · intro u hu hne
    rw [mkNormalizedItem_url]
    simp [orElseStr, hu, hne]
  · rintro (h | h) <;> rw [mkNormalizedItem_url] <;> simp [orElseStr, h]
  · intro s2 e2 hurl
    rw [mkNormalizedItem_url, mkNormalizedItem_url] at hurl
    rw [mkNormalizedItem_id, mkNormalizedItem_id, hurl]

/-- Membership in the stable insertion is membership in the list or being
the inserted element. -/
theorem mem_insertByPosition :
    ∀ (l : List SerpResult) (r x : SerpResult),
      x ∈ insertByPosition r l ↔ x = r ∨ x ∈ l
  | [], r, x => by simp [insertByPosition]
  | y :: ys, r, x => by
    simp only [insertByPosition]
    split_ifs with h
    · rw [List.mem_cons, mem_insertByPosition ys r x, List.mem_cons]
      tauto
    · rw [List.mem_cons]

/-- Stable insertion preserves ascending-by-position sortedness. -/
theorem sorted_insertByPosition :
    ∀ (l : List SerpResult) (r : SerpResult),
      l.Pairwise (fun a b => a.position ≤ b.position) →
      (insertByPosition r l).Pairwise (fun a b => a.position ≤ b.position)
  | [], r, _ => by simp [insertByPosition]
  | y :: ys, r, hp => by
    simp only [insertByPosition]
    obtain ⟨hy, hys⟩ := List.pairwise_cons.mp hp
    split_ifs with h
    · refine List.pairwise_cons.mpr ⟨?_, sorted_insertByPosition ys r hys⟩
      intro b hb
      rcases (mem_insertByPosition ys r b).mp hb with rfl | hbys
      · exact h.le
      · exact hy b hbys
    · refine List.pairwise_cons.mpr ⟨?_, hp⟩
      intro b hb
      rcases List.mem_cons.mp hb with rfl | hbys
      · exact le_of_not_lt h
      · exact le_trans (le_of_not_lt h) (hy b hbys)

/-- The final sort of deduplicateResults yields an ascending-by-position
list. -/
theorem sorted_sortByPosition (l : List SerpResult) :
    (sortByPosition l).Pairwise (fun a b => a.position ≤ b.position) := by
  induction l with
  | nil => simp [sortByPosition]
  | cons x xs ih =>
    simpa [sortByPosition] using sorted_insertByPosition (sortByPosition xs) x ih

/-- The final sort of deduplicateResults preserves membership. -/
theorem mem_sortByPosition (l : List SerpResult) (x : SerpResult) :
    x ∈ sortByPosition l ↔ x ∈ l := by
  induction l with
  | nil => simp [sortByPosition]
  | cons y ys ih =>
    show x ∈ insertByPosition y (sortByPosition ys) ↔ _
    rw [mem_insertByPosition, ih, List.mem_cons]

/-- Membership in the dedup loop's output: a result survives exactly when
its normalized URL is unseen and it is the first entry of the input with
its normalized URL. -/
theorem mem_dedupAux (norm : String → String) :
    ∀ (l : List SerpResult) (seen : List String) (r : SerpResult),
      r ∈ dedupAux norm seen l ↔
        (norm r.url ∉ seen ∧
          l.find? (fun x => norm x.url == norm r.url) = some r)
  | [], seen, r => by simp [dedupAux]
  | x :: rest, seen, r => by
    simp only [dedupAux]
    by_cases hseen : norm x.url ∈ seen
    · rw [if_pos hseen]
      by_cases hxr : norm x.url = norm r.url
      · refine iff_of_false (fun h => ?_) (fun h => h.1 (hxr ▸ hseen))
        exact ((mem_dedupAux norm rest seen r).mp h).1 (hxr ▸ hseen)
      · rw [mem_dedupAux norm rest seen r,
          List.find?_cons_of_neg _ (by simpa using hxr)]
    · rw [if_neg hseen, List.mem_cons]
      by_cases hxr : norm x.url = norm r.url
      · rw [List.find?_cons_of_pos _ (by simpa using hxr)]
        constructor
        · rintro (rfl | hmem)
          · exact ⟨hseen, rfl⟩
          · have := ((mem_dedupAux norm rest (norm x.url :: seen) r).mp hmem).1
            exact absurd (hxr ▸ List.mem_cons_self _ _) this
        · rintro ⟨hns, heq⟩
          injection heq with h
          exact Or.inl h.symm
      · rw [List.find?_cons_of_neg _ (by simpa using hxr)]
        constructor
        · rintro (rfl | hmem)
          · exact absurd rfl hxr
          · obtain ⟨hns, hfind⟩ := (mem_dedupAux norm rest (norm x.url :: seen) r).mp hmem
            exact ⟨fun h => hns (List.mem_cons_of_mem _ h), hfind⟩
        · rintro ⟨hns, hfind⟩
          right
          refine (mem_dedupAux norm rest (norm x.url :: seen) r).mpr ⟨?_, hfind⟩
          intro h
          rcases List.mem_cons.mp h with h1 | h2
          · exact hxr h1.symm
          · exact hns h2

/-- C2: the merge and dedup step concatenates direct URLs before search
results, keeps exactly the first occurrence of each normalized URL (a
result survives iff it is what find-first returns for its normalized URL
on the direct-first concatenation), and sorts the survivors ascending by
ranking position; in the tie-break scenario, direct URL D at position 0
and organic result O at position 5 with equal normalized URLs merge to the
single entry D. -/
theorem mergeDedup_spec (norm : String → String) (directUrls : List DirectUrl)
    (serpResults : List SerpResult) :
    (mergedResults norm directUrls serpResults).Pairwise
      (fun a b => a.position ≤ b.position) ∧
    (∀ r, r ∈ mergedResults norm directUrls serpResults ↔
      (directAsSerpResults directUrls ++ serpResults).find?
        (fun x => norm x.url == norm r.url) = some r) ∧
    mergedResults normC [directD] [organicO] =
      [{ url := "https://d.example/", title := "DirectD"
         snippet := "Direct source: DirectD", position := 0 }] := by
  refine ⟨sorted_sortByPosition _, ?_, by decide⟩
  intro r
  rw [mergedResults, deduplicateResults, mem_sortByPosition, mem_dedupAux]
  simp

/-- C6: a candidate surviving dedup is retained exactly when its normalized
URL is outside the recently-scraped set; that set (with its default 7-day
window) holds the normalized URL of every item fetched within the window;
and whatever the selection step picks from the retained candidates, no URL
in the recently-scraped set reaches the scrape stage. -/
theorem recencyFilter_spec (norm : String → String) (store : List HistoricalItem)
    (now : ℤ) (uniqueResults : List SerpResult) (selectedUrls : List UrlToScrape)
    (hsel : ∀ u ∈ selectedUrls,
      ∃ r ∈ filterNotRecent norm (getRecentlyScrapedUrls norm store now)
        uniqueResults, u.url = r.url) :
    URL_DEDUP_DAYS = 7 ∧
    (∀ v, v ∈ getRecentlyScrapedUrls norm store now ↔
      ∃ i ∈ store, now - 7 ≤ i.fetchedAt ∧ norm i.url = v) ∧
    (∀ r, r ∈ filterNotRecent norm (getRecentlyScrapedUrls norm store now)
        uniqueResults ↔
      (r ∈ uniqueResults ∧ norm r.url ∉ getRecentlyScrapedUrls norm store now)) ∧
    (∀ u ∈ selectedUrls, norm u.url ∉ getRecentlyScrapedUrls norm store now) := by
  have hmem : ∀ r : SerpResult,
      r ∈ filterNotRecent norm (getRecentlyScrapedUrls norm store now)
        uniqueResults ↔
      (r ∈ uniqueResults ∧ norm r.url ∉ getRecentlyScrapedUrls norm store now) := by
    intro r
    simp [filterNotRecent, List.mem_filter]
  refine ⟨rfl, ?_, hmem, ?_⟩
  · intro v
    simp only [getRecentlyScrapedUrls, URL_DEDUP_DAYS, List.mem_map, List.mem_filter,
      decide_eq_true_eq]
    constructor
    · rintro ⟨a, ⟨h1, h2⟩, h3⟩
      exact ⟨a, h1, h2, h3⟩
    · rintro ⟨a, h1, h2, h3⟩
      exact ⟨a, ⟨h1, h2⟩, h3⟩
  · intro u hu
    obtain ⟨r, hr, hur⟩ := hsel u hu
    rw [hur]
    exact ((hmem r).mp hr).2

/-- C6 witness: the recency scenario at a concrete store (u1 fetched within
the window, so u1 is dropped and u2 survives and is the only selectable
candidate). -/
theorem recencyFilter_spec_witness :
    URL_DEDUP_DAYS = 7 ∧
    (∀ v, v ∈ getRecentlyScrapedUrls (fun s => s) storeDemo 0 ↔
      ∃ i ∈ storeDemo, (0 : ℤ) - 7 ≤ i.fetchedAt ∧ i.url = v) ∧
    (∀ r, r ∈ filterNotRecent (fun s => s)
        (getRecentlyScrapedUrls (fun s => s) storeDemo 0) uniqueDemo ↔
      (r ∈ uniqueDemo ∧
        r.url ∉ getRecentlyScrapedUrls (fun s => s) storeDemo 0)) ∧
    (∀ u ∈ selectedDemo,
      u.url ∉ getRecentlyScrapedUrls (fun s => s) storeDemo 0) :=
  recencyFilter_spec (fun s => s) storeDemo 0 uniqueDemo selectedDemo (by decide)

end MoodRadar
